import Mathlib

/-!
Shallow embedding of `src/server.js` (note-outline-api).

The repository is a small Express service.  The source file contains the
current server implementation followed by an older duplicated draft of the
same file; the spec describes the current implementation (the one with the
`try`/`catch` in `extractHeadings`, the `Number.isFinite` guard and the
20-second timeouts), and the definitions below are translated from it.

Effects are made explicit:
* fetching a page is an oracle value `FetchOutcome` (a thrown network or
  timeout error, or a response with an `ok` flag and a parsed document);
* the HTML document, as seen through cheerio's selectors, is a `Page`
  holding the text of the first `<title>`, the first `<h1>`, and the texts
  of all `<h2>` and `<h3>` elements in document order;
* JS numbers are modelled as `JNum` (NaN, the infinities, or a rational);
* the handler returns a `Trace`: the HTTP response together with a record
  of whether the search API was called and which URLs were passed to the
  page extractor.
-/

/-- Whitespace test used by the model for the JS regex class `\s` and for
`String.prototype.trim` (restricted to the ASCII whitespace characters,
the only ones relevant to the claims). -/
def isWsChar (c : Char) : Bool :=
  c == ' ' || c == '\t' || c == '\n' || c == '\r' || c == '\x0b' || c == '\x0c'

/-- Model of `.replace(/\s+/g, " ")` on a character list: every maximal
run of whitespace characters becomes a single space. -/
def collapseChars : List Char → List Char
  | [] => []
  | [c] => if isWsChar c then [' '] else [c]
  | c :: d :: rest =>
    if isWsChar c then
      if isWsChar d then collapseChars (d :: rest)
      else ' ' :: collapseChars (d :: rest)
    else c :: collapseChars (d :: rest)

/-- Model of `String.prototype.trim`: drop leading and trailing whitespace. -/
def trimChars (l : List Char) : List Char :=
  List.rdropWhile isWsChar (l.dropWhile isWsChar)

/-- `s.trim()` on strings. -/
def jsTrim (s : String) : String :=
  String.mk (trimChars s.data)

/-- `s.replace(/\s+/g, " ")` on strings. -/
def collapseWs (s : String) : String :=
  String.mk (collapseChars s.data)

/-- `s.replace(/\s+/g, " ").trim()`, the normalization applied to the
`h1`/`h2`/`h3` texts in `extractHeadings`. -/
def normText (s : String) : String :=
  jsTrim (collapseWs s)

/-- `s.slice(0, n)` for a nonnegative index `n`. -/
def jsSlice (n : Nat) (s : String) : String :=
  String.mk (s.data.take n)

/-- `needle` is a prefix of `hay` (character lists). -/
def isPre : List Char → List Char → Bool
  | [], _ => true
  | _ :: _, [] => false
  | a :: as, b :: bs => a == b && isPre as bs

/-- `hay.includes(needle)` on character lists. -/
def listContains : List Char → List Char → Bool
  | [], needle => needle.isEmpty
  | h :: t, needle => isPre needle (h :: t) || listContains t needle

/-- `hay.includes(needle)` on strings. -/
def strContains (hay needle : String) : Bool :=
  listContains hay.data needle.data

/-- The parsed HTML document, as `extractHeadings` observes it through
cheerio: the text of the first `<title>` element (empty if there is none),
the text of the first `<h1>`, and the texts of every `<h2>` and `<h3>`
element in document order. -/
structure Page where
  titleText : String
  h1Text : String
  h2Texts : List String
  h3Texts : List String
deriving DecidableEq, Repr

/-- Outcome of fetching one URL: `err` is a rejected promise (network
failure, timeout abort, or a body/parse error thrown inside the `try`
block), `resp ok page` is a settled HTTP response with its `ok` flag and
the document obtained from its body. -/
inductive FetchOutcome where
  | err
  | resp (ok : Bool) (page : Page)
deriving DecidableEq, Repr

/-- The record produced by `extractHeadings`. -/
structure PageExtract where
  page_title : String
  h1 : String
  h2 : List String
  h3 : List String
deriving DecidableEq, Repr

/-- The all-empty `PageExtract` returned on any failure. -/
def emptyExtract : PageExtract :=
  { page_title := "", h1 := "", h2 := [], h3 := [] }

/-- The `$("h2").each(...)` / `$("h3").each(...)` loops: normalize each
element's text and push it if truthy (nonempty). -/
def collectTexts (ts : List String) : List String :=
  ts.foldl (fun acc el =>
    let t := normText el
    if t == "" then acc else acc ++ [t]) []

/-- The body of the `try` block of `extractHeadings`: a rejected fetch
propagates as an exception (`Except.error`), a non-2xx response returns
the all-empty record, a 2xx response is parsed and normalized, then the
length caps are applied. -/
def extractBody : FetchOutcome → Except Unit PageExtract
  | .err => .error ()
  | .resp ok page =>
    if ok then
      let page_title := jsTrim page.titleText
      let h1 := normText page.h1Text
      let h2 := collectTexts page.h2Texts
      let h3 := collectTexts page.h3Texts
      .ok { page_title := jsSlice 200 page_title
            h1 := jsSlice 200 h1
            h2 := (h2.take 20).map (jsSlice 200)
            h3 := (h3.take 40).map (jsSlice 200) }
    else
      .ok emptyExtract

/-- `extractHeadings`: the `try` body wrapped in the `catch` that turns
any exception into the all-empty record. -/
def extractHeadings (o : FetchOutcome) : PageExtract :=
  match extractBody o with
  | .ok e => e
  | .error _ => emptyExtract

/-- A field of an organic search-result entry, as JS sees it: either a
string or some non-string value. -/
inductive JsVal where
  | str (s : String)
  | nonstr
deriving DecidableEq, Repr

/-- One entry of `serpJson.organic_results`; `none` models an absent
(`undefined`) field. -/
structure Organic where
  link : Option JsVal
  title : Option JsVal
deriving DecidableEq, Repr

/-- The domain marker used by the filter. -/
def noteMarker : String := "note.com/"

/-- `typeof r?.link === "string" && r.link.includes("note.com/")`. -/
def isNoteLink (r : Organic) : Bool :=
  match r.link with
  | some (.str s) => strContains s noteMarker
  | _ => false

/-- The string value of `r.link` (total; only used on kept entries). -/
def linkOf (r : Organic) : String :=
  match r.link with
  | some (.str s) => s
  | _ => ""

/-- `typeof r?.title === "string" ? r.title : ""`. -/
def titleOf (r : Organic) : String :=
  match r.title with
  | some (.str s) => s
  | _ => ""

/-- One element of `top`: rank, url and the SERP title. -/
structure Ranked where
  rank : Nat
  url : String
  serp_title : String
deriving DecidableEq, Repr

/-- The `.map((r, i) => ({rank: i + 1, ...}))` step: map with the index
of the element in the (already filtered and sliced) list. -/
def rankFrom (i : Nat) : List Organic → List Ranked
  | [] => []
  | r :: rest =>
    { rank := i + 1, url := linkOf r, serp_title := titleOf r } :: rankFrom (i + 1) rest

/-- The filter/ranker: keep entries whose `link` is a string containing
the marker, slice to the first `num`, and assign 1-based ranks. -/
def topResults (organic : List Organic) (num : Nat) : List Ranked :=
  rankFrom 0 ((organic.filter isNoteLink).take num)

/-- A JS number: NaN, an infinity, or a finite value (modelled as ℚ). -/
inductive JNum where
  | nan
  | posInf
  | negInf
  | fin (q : ℚ)
deriving DecidableEq

/-- Line 91: `Math.min(Math.max(Number.isFinite(numRaw) ? numRaw : 10, 1), 10)`. -/
def effNum (numRaw : JNum) : ℚ :=
  min (max (match numRaw with | .fin q => q | _ => (10 : ℚ)) 1) 10

/-- `ToIntegerOrInfinity` as applied by `Array.prototype.slice` to a
nonnegative end index: truncate to an integer. -/
def effJsIdx (q : ℚ) : Nat :=
  (Rat.floor q).toNat

/-- The count actually used to slice the organic results. -/
def effNumNat (numRaw : JNum) : Nat :=
  effJsIdx (effNum numRaw)

/-- Process-wide configuration read from the environment; the empty
string models an unset variable (both are falsy in JS). -/
structure Config where
  serpApiKey : String
  apiToken : String
deriving DecidableEq, Repr

/-- The bearer token of a request: `auth.startsWith("Bearer ") ?
auth.slice(7).trim() : ""` applied to `req.headers.authorization || ""`. -/
def bearerOf (authHeader : Option String) : String :=
  let auth := match authHeader with | some a => a | none => ""
  if isPre "Bearer ".data auth.data then jsTrim (String.mk (auth.data.drop 7))
  else ""

/-- `requireAuth` as a predicate: authorized iff no token is configured
or the request's bearer token equals it (the 401 response it sends on
failure is produced by the handler model below). -/
def requireAuth (cfg : Config) (authHeader : Option String) : Bool :=
  if cfg.apiToken == "" then true
  else bearerOf authHeader == cfg.apiToken

/-- The decimal digit character of `n % 10`. -/
def digitCh (n : Nat) : Char :=
  match n % 10 with
  | 0 => '0' | 1 => '1' | 2 => '2' | 3 => '3' | 4 => '4'
  | 5 => '5' | 6 => '6' | 7 => '7' | 8 => '8' | _ => '9'

/-- Two decimal digits (the low two digits of `n`). -/
def pad2c (n : Nat) : List Char := [digitCh (n / 10), digitCh n]

/-- Three decimal digits. -/
def pad3c (n : Nat) : List Char := [digitCh (n / 100), digitCh (n / 10), digitCh n]

/-- Four decimal digits. -/
def pad4c (n : Nat) : List Char :=
  [digitCh (n / 1000), digitCh (n / 100), digitCh (n / 10), digitCh n]

/-- Calendar date. -/
structure Ymd where
  year : Nat
  month : Nat
  day : Nat
deriving DecidableEq, Repr

/-- Proleptic-Gregorian date of day number `z` counted from 1970-01-01
(the civil-from-days algorithm used to model the runtime's `Date`). -/
def civilFromDays (z : Nat) : Ymd :=
  let zz := z + 719468
  let era := zz / 146097
  let doe := zz % 146097
  let yoe := (doe - doe / 1460 + doe / 36524 - doe / 146096) / 365
  let y := yoe + era * 400
  let doy := doe - (365 * yoe + yoe / 4 - yoe / 100)
  let mp := (5 * doy + 2) / 153
  let d := doy - (153 * mp + 2) / 5 + 1
  let m := if mp < 10 then mp + 3 else mp - 9
  { year := if m ≤ 2 then y + 1 else y, month := m, day := d }

/-- Model of the runtime's `Date.prototype.toISOString` for a clock value
of `ms` milliseconds since the Unix epoch (faithful for years up to 9999,
the whole range a running server can observe). -/
def toISOString (ms : Nat) : String :=
  let c := civilFromDays (ms / 86400000)
  let rem := ms % 86400000
  String.mk (pad4c c.year ++ ['-'] ++ pad2c c.month ++ ['-'] ++ pad2c c.day
    ++ ['T'] ++ pad2c (rem / 3600000) ++ [':'] ++ pad2c (rem % 3600000 / 60000)
    ++ [':'] ++ pad2c (rem % 60000 / 1000) ++ ['.'] ++ pad3c (rem % 1000) ++ ['Z'])

/-- `c` is a decimal digit character. -/
def isDigitCh (c : Char) : Bool :=
  decide ('0' ≤ c) && decide (c ≤ '9')

/-- Numeric value of a two-digit character pair. -/
def twoDigits (a b : Char) : Nat :=
  (a.toNat - 48) * 10 + (b.toNat - 48)

/-- Checker for the `YYYY-MM-DDTHH:MM:SS.sssZ` ISO-8601 timestamp shape
(the exact shape `toISOString` emits), including the calendar-field
ranges. -/
def isValidISO8601 (s : String) : Bool :=
  match s.data with
  | [y1, y2, y3, y4, a1, o1, o2, a2, d1, d2, a3, t1, t2, a4,
     i1, i2, a5, e1, e2, a6, f1, f2, f3, a7] =>
    a1 == '-' && a2 == '-' && a3 == 'T' && a4 == ':' && a5 == ':'
      && a6 == '.' && a7 == 'Z'
      && [y1, y2, y3, y4, o1, o2, d1, d2, t1, t2, i1, i2, e1, e2,
          f1, f2, f3].all isDigitCh
      && decide (1 ≤ twoDigits o1 o2) && decide (twoDigits o1 o2 ≤ 12)
      && decide (1 ≤ twoDigits d1 d2) && decide (twoDigits d1 d2 ≤ 31)
      && decide (twoDigits t1 t2 ≤ 23) && decide (twoDigits i1 i2 ≤ 59)
      && decide (twoDigits e1 e2 ≤ 59)
  | _ => false

/-- One element of the `results` array of the success response. -/
structure OutlineRecord where
  rank : Nat
  url : String
  serp_title : String
  page_title : String
  h1 : String
  h2 : List String
  h3 : List String
  fetched_at : String
deriving DecidableEq, Repr

/-- The JSON responses the handler can produce. `jsonErr` carries the
HTTP status, the `error` field and an optional `detail`; `serpFail` is
the 502 body with the upstream status and truncated body; `emptyOk` is
the 200 short-circuit body with its `note`; `ok` is the success body. -/
inductive Resp where
  | jsonErr (status : Nat) (error : String) (detail : Option String)
  | serpFail (status : Nat) (error : String) (upStatus : Nat) (detail : String)
  | emptyOk (query : String) (results : List OutlineRecord) (note : String)
  | ok (query : String) (results : List OutlineRecord)
deriving DecidableEq, Repr

/-- HTTP status of a response. -/
def Resp.status : Resp → Nat
  | .jsonErr s _ _ => s
  | .serpFail s _ _ _ => s
  | .emptyOk _ _ _ => 200
  | .ok _ _ => 200

/-- Outcome of the SERP API call: a rejected fetch (caught by the outer
`catch`), a non-2xx response with its status and body text, or a 2xx
response whose `organic_results` field is an array (`some`) or absent /
not an array / unparseable (`none`, which the code turns into `[]`). -/
inductive SerpOutcome where
  | netErr (msg : String)
  | fail (status : Nat) (bodyText : String)
  | ok (organic : Option (List Organic))
deriving DecidableEq, Repr

/-- What one request did: the response sent, whether the SERP API fetch
was issued, and the URLs passed to `extractHeadings`, in order. -/
structure Trace where
  resp : Resp
  serpCalled : Bool
  extractedUrls : List String
deriving DecidableEq, Repr

/-- The extraction loop: for each `top` item call `extractHeadings` on
its URL and push an `OutlineRecord` stamped with `new Date()` (the `i`-th
clock reading). -/
def buildResults (fetchPage : String → FetchOutcome) (clock : Nat → Nat) :
    Nat → List Ranked → List OutlineRecord
  | _, [] => []
  | i, item :: rest =>
    let e := extractHeadings (fetchPage item.url)
    { rank := item.rank, url := item.url, serp_title := item.serp_title
      page_title := e.page_title, h1 := e.h1, h2 := e.h2, h3 := e.h3
      fetched_at := toISOString (clock i) } :: buildResults fetchPage clock (i + 1) rest

/-- `handleNoteTopOutline`: auth gate, missing-key gate, clamp, empty
query gate, SERP call, filter/rank, short-circuit on zero survivors, and
the sequential extraction loop. -/
def handleNoteTopOutline (cfg : Config) (authHeader : Option String)
    (query : String) (numRaw : JNum) (serp : SerpOutcome)
    (fetchPage : String → FetchOutcome) (clock : Nat → Nat) : Trace :=
  if requireAuth cfg authHeader = false then
    ⟨Resp.jsonErr 401 "Unauthorized" none, false, []⟩
  else if cfg.serpApiKey == "" then
    ⟨Resp.jsonErr 500 "SERPAPI_KEY is missing" none, false, []⟩
  else
    let num := effNum numRaw
    if query == "" then
      ⟨Resp.jsonErr 400 "query is required" none, false, []⟩
    else
      let serpQuery := query ++ " site:note.com"
      match serp with
      | .netErr msg => ⟨Resp.jsonErr 500 "Internal error" (some msg), true, []⟩
      | .fail status bodyText =>
        ⟨Resp.serpFail 502 "SERP API failed" status (jsSlice 800 bodyText), true, []⟩
      | .ok organicOpt =>
        let organic := match organicOpt with | some l => l | none => []
        let top := topResults organic (effJsIdx num)
        if top.length == 0 then
          ⟨Resp.emptyOk serpQuery [] "No note.com results found in top organic results.",
            true, []⟩
        else
          ⟨Resp.ok serpQuery (buildResults fetchPage clock 0 top), true,
            top.map (fun r => r.url)⟩

/-- The route wrappers (`GET` and `POST` both do this): coerce the raw
query value to a string, defaulting to the empty string, trim it, and
delegate to the handler. -/
def noteTopOutlineRoute (cfg : Config) (authHeader : Option String)
    (qRaw : Option String) (numRaw : JNum) (serp : SerpOutcome)
    (fetchPage : String → FetchOutcome) (clock : Nat → Nat) : Trace :=
  handleNoteTopOutline cfg authHeader
    (jsTrim (match qRaw with | some s => s | none => "")) numRaw serp fetchPage clock

/-! ### Basic lemmas about the embedded operations -/

theorem mk_length (l : List Char) : (String.mk l).length = l.length := rfl

theorem jsSlice_length_le (n : Nat) (s : String) : (jsSlice n s).length ≤ n := by
  show (s.data.take n).length ≤ n
  simp [List.length_take]

theorem jsSlice_of_le (n : Nat) (s : String) (h : s.length ≤ n) : jsSlice n s = s := by
  apply String.ext
  show s.data.take n = s.data
  exact List.take_of_length_le h

theorem jsSlice_length_of_lt (n : Nat) (s : String) (h : n < s.length) :
    (jsSlice n s).length = n := by
  show (s.data.take n).length = n
  simp [List.length_take]
  omega

theorem jsSlice_ne_empty (n : Nat) (s : String) (hn : 0 < n) (hs : s ≠ "") :
    jsSlice n s ≠ "" := by
  intro h
  have hd : s.data.take n = [] := congrArg String.data h
  rcases List.take_eq_nil_iff.1 hd with h1 | h1
  · omega
  · exact hs (String.ext h1)

theorem rankFrom_length (i : Nat) (l : List Organic) :
    (rankFrom i l).length = l.length := by
  induction l generalizing i with
  | nil => rfl
  | cons r t ih => simp [rankFrom, ih]

theorem rankFrom_map_rank (i : Nat) (l : List Organic) :
    (rankFrom i l).map (fun r => r.rank) = List.range' (i + 1) l.length := by
  induction l generalizing i with
  | nil => rfl
  | cons r t ih => simp [rankFrom, ih, List.range'_succ]

theorem rankFrom_map_url (i : Nat) (l : List Organic) :
    (rankFrom i l).map (fun r => r.url) = l.map linkOf := by
  induction l generalizing i with
  | nil => rfl
  | cons r t ih => simp [rankFrom, ih]

theorem rankFrom_mem (i : Nat) (l : List Organic) (x : Ranked) (hx : x ∈ rankFrom i l) :
    ∃ r ∈ l, x.url = linkOf r := by
  induction l generalizing i with
  | nil => cases hx
  | cons r t ih =>
    rcases List.mem_cons.1 hx with hx | hx
    · exact ⟨r, List.mem_cons_self r t, by rw [hx]⟩
    · rcases ih (i + 1) hx with ⟨r', hr', hurl⟩
      exact ⟨r', List.mem_cons_of_mem r hr', hurl⟩

theorem isNoteLink_contains (r : Organic) (h : isNoteLink r = true) :
    strContains (linkOf r) noteMarker = true := by
  rcases hl : r.link with _ | v
  · simp [isNoteLink, hl] at h
  · cases v with
    | str s => simpa [linkOf, hl] using (by simpa [isNoteLink, hl] using h : strContains s noteMarker = true)
    | nonstr => simp [isNoteLink, hl] at h

theorem buildResults_length (fp : String → FetchOutcome) (clk : Nat → Nat)
    (i : Nat) (l : List Ranked) : (buildResults fp clk i l).length = l.length := by
  induction l generalizing i with
  | nil => rfl
  | cons r t ih => simp [buildResults, ih]

theorem buildResults_map_rank (fp : String → FetchOutcome) (clk : Nat → Nat)
    (i : Nat) (l : List Ranked) :
    (buildResults fp clk i l).map (fun r => r.rank) = l.map (fun r => r.rank) := by
  induction l generalizing i with
  | nil => rfl
  | cons r t ih => simp [buildResults, ih]

theorem buildResults_map_fetched (fp : String → FetchOutcome) (clk : Nat → Nat)
    (i : Nat) (l : List Ranked) :
    (buildResults fp clk i l).map (fun r => r.fetched_at)
      = (List.range' i l.length).map (fun j => toISOString (clk j)) := by
  induction l generalizing i with
  | nil => rfl
  | cons r t ih => simp [buildResults, ih, List.range'_succ]

theorem collectTexts_eq (ts : List String) :
    collectTexts ts = (ts.map normText).filter (fun x => !(x == "")) := by
  have gen : ∀ (l : List String) (acc : List String),
      l.foldl (fun acc el =>
        let t := normText el
        if t == "" then acc else acc ++ [t]) acc
        = acc ++ (l.map normText).filter (fun x => !(x == "")) := by
    intro l
    induction l with
    | nil => intro acc; simp
    | cons t r ih =>
      intro acc
      simp only [beq_iff_eq] at ih
      by_cases h : normText t = ""
      · simp [List.foldl_cons, h, ih]
      · simp [List.foldl_cons, h, ih]
  simpa [collectTexts] using gen ts []

/-- A reduction of `extractHeadings` on a 2xx response. -/
theorem extractHeadings_resp_true (page : Page) :
    extractHeadings (.resp true page)
      = { page_title := jsSlice 200 (jsTrim page.titleText)
          h1 := jsSlice 200 (normText page.h1Text)
          h2 := ((collectTexts page.h2Texts).take 20).map (jsSlice 200)
          h3 := ((collectTexts page.h3Texts).take 40).map (jsSlice 200) } := rfl

/-- Claim C1: `extractHeadings` never raises an observable error: its
model is a total function into `PageExtract`; a rejected fetch (network
or timeout error, or a body/parse exception) and a non-2xx response both
return the all-empty record, and the batch loop produces one record per
entry no matter what each fetch does, so a failing page never aborts the
processing of the other entries. -/
theorem extractHeadings_degrades_gracefully :
    extractHeadings .err = emptyExtract ∧
    (∀ p : Page, extractHeadings (.resp false p) = emptyExtract) ∧
    (∀ (fp : String → FetchOutcome) (clk : Nat → Nat) (i : Nat) (top : List Ranked),
      (buildResults fp clk i top).length = top.length) :=
  ⟨rfl, fun _ => rfl, fun fp clk i top => buildResults_length fp clk i top⟩

/-- Claim C2: the filter/ranker keeps exactly the entries whose `link`
is a string containing `"note.com/"`, in their original order truncated
to the first `num`, and the ranks are `1, 2, …` by position in the kept
list; every kept entry's URL contains the marker. -/
theorem topResults_filter_rank (organic : List Organic) (num : Nat) :
    (topResults organic num).map (fun r => r.url)
      = ((organic.filter isNoteLink).take num).map linkOf ∧
    (topResults organic num).map (fun r => r.rank)
      = List.range' 1 (min num (organic.filter isNoteLink).length) ∧
    (topResults organic num).all (fun r => strContains r.url noteMarker) = true := by
  refine ⟨rankFrom_map_url 0 _, ?_, ?_⟩
  · rw [topResults, rankFrom_map_rank, List.length_take]
  · rw [List.all_eq_true]
    intro x hx
    rcases rankFrom_mem 0 _ x hx with ⟨r, hr, hurl⟩
    have hkeep : isNoteLink r = true :=
      List.of_mem_filter (List.take_subset num _ hr)
    rw [hurl]
    exact isNoteLink_contains r hkeep

/-- Claim C3: the effective result count is the clamp of the raw number
into [1, 10]: non-finite inputs become 10, values below 1 become 1,
values above 10 become 10, and values already in [1, 10] pass through. -/
theorem effNum_clamped (numRaw : JNum) :
    (1 ≤ effNum numRaw ∧ effNum numRaw ≤ 10) ∧
    effNum numRaw = (match numRaw with
      | .fin q => if q < 1 then 1 else if 10 < q then 10 else q
      | _ => (10 : ℚ)) := by
  have bounds : ∀ n : JNum, 1 ≤ effNum n ∧ effNum n ≤ 10 := by
    intro n
    refine ⟨le_min (le_max_right _ _) (by norm_num), min_le_right _ _⟩
  refine ⟨bounds numRaw, ?_⟩
  cases numRaw with
  | fin q =>
    show min (max q 1) 10 = if q < 1 then 1 else if 10 < q then 10 else q
    by_cases h1 : q < 1
    · rw [if_pos h1, max_eq_right h1.le, min_eq_left (by norm_num)]
    · rw [if_neg h1, max_eq_left (not_lt.1 h1)]
      by_cases h2 : 10 < q
      · rw [if_pos h2, min_eq_right h2.le]
      · rw [if_neg h2, min_eq_left (not_lt.1 h2)]
  | nan => show min (max 10 1) 10 = 10; norm_num
  | posInf => show min (max 10 1) 10 = 10; norm_num
  | negInf => show min (max 10 1) 10 = 10; norm_num

/-- Claim C6: every `PageExtract` the extractor returns satisfies the
caps: title and h1 at most 200 characters, at most 20 h2 items and 40 h3
items, and every h2/h3 item at most 200 characters. -/
theorem extractHeadings_caps (o : FetchOutcome) :
    (extractHeadings o).page_title.length ≤ 200 ∧
    (extractHeadings o).h1.length ≤ 200 ∧
    (extractHeadings o).h2.length ≤ 20 ∧
    (extractHeadings o).h3.length ≤ 40 ∧
    (extractHeadings o).h2.all (fun x => decide (x.length ≤ 200)) = true ∧
    (extractHeadings o).h3.all (fun x => decide (x.length ≤ 200)) = true := by
  have hall : ∀ (n : Nat) (l : List String),
      (l.map (jsSlice 200)).all (fun x => decide (x.length ≤ 200)) = true := by
    intro n l
    rw [List.all_eq_true]
    intro x hx
    rcases List.mem_map.1 hx with ⟨y, _, rfl⟩
    simpa using jsSlice_length_le 200 y
  cases o with
  | err => decide
  | resp ok page =>
    cases ok with
    | false =>
      rw [show extractHeadings (.resp false page) = emptyExtract from rfl]
      decide
    | true =>
      rw [extractHeadings_resp_true]
      refine ⟨jsSlice_length_le _ _, jsSlice_length_le _ _, ?_, ?_, hall 20 _, hall 40 _⟩
      · simp [List.length_take]
      · simp [List.length_take]

/-- Claim C10: every h2/h3 item of an extracted record is nonempty —
texts that normalize to the empty string are dropped before the 20/40
caps are applied, so the kept length is the minimum of the cap and the
number of elements with nonempty normalized text. -/
theorem h2_h3_items_nonempty (page : Page) :
    ((extractHeadings (.resp true page)).h2.all (fun x => !(x == "")) = true) ∧
    ((extractHeadings (.resp true page)).h3.all (fun x => !(x == "")) = true) ∧
    (extractHeadings (.resp true page)).h2.length
      = min 20 (page.h2Texts.countP (fun t => !(normText t == ""))) ∧
    (extractHeadings (.resp true page)).h3.length
      = min 40 (page.h3Texts.countP (fun t => !(normText t == ""))) := by
  have hne : ∀ (cap : Nat) (ts : List String),
      (((collectTexts ts).take cap).map (jsSlice 200)).all (fun x => !(x == "")) = true := by
    intro cap ts
    rw [List.all_eq_true]
    intro x hx
    rcases List.mem_map.1 hx with ⟨y, hy, rfl⟩
    have hy2 : y ∈ collectTexts ts := List.take_subset cap _ hy
    rw [collectTexts_eq] at hy2
    have hyne : ¬(y = "") := by
      have := List.of_mem_filter hy2
      simpa using this
    simpa using jsSlice_ne_empty 200 y (by norm_num) hyne
  have hlen : ∀ (cap : Nat) (ts : List String),
      (((collectTexts ts).take cap).map (jsSlice 200)).length
        = min cap (ts.countP (fun t => !(normText t == ""))) := by
    intro cap ts
    rw [List.length_map, List.length_take, collectTexts_eq,
      ← List.countP_eq_length_filter, List.countP_map]
    rfl
  rw [extractHeadings_resp_true]
  exact ⟨hne 20 _, hne 40 _, hlen 20 _, hlen 40 _⟩

/-! ### Normalization properties (whitespace collapsing and trimming) -/

theorem collapseChars_cons_not (a : Char) (l : List Char) (ha : isWsChar a = false) :
    collapseChars (a :: l) = a :: collapseChars l := by
  cases l with
  | nil => simp [collapseChars, ha]
  | cons d r => simp [collapseChars, ha]

/-- A character list is in collapsed form: its only whitespace character
is the plain space and no two adjacent characters are both whitespace. -/
def noWsRuns : List Char → Bool
  | [] => true
  | [c] => !isWsChar c || c == ' '
  | c :: d :: rest => (!isWsChar c || (c == ' ' && !isWsChar d)) && noWsRuns (d :: rest)

theorem noWsRuns_cons_not (a : Char) (l : List Char) (ha : isWsChar a = false) :
    noWsRuns (a :: l) = noWsRuns l := by
  cases l with
  | nil => simp [noWsRuns, ha]
  | cons d r => simp [noWsRuns, ha]

theorem noWsRuns_tail (c : Char) (l : List Char) (h : noWsRuns (c :: l) = true) :
    noWsRuns l = true := by
  cases l with
  | nil => rfl
  | cons d r => exact (Bool.and_eq_true_iff.1 h).2

theorem noWsRuns_collapse (l : List Char) : noWsRuns (collapseChars l) = true := by
  induction l with
  | nil => rfl
  | cons c t ih =>
    cases t with
    | nil =>
      by_cases hc : isWsChar c = true
      · simp [collapseChars, hc, noWsRuns]
      · simp only [Bool.not_eq_true] at hc
        simp [collapseChars, hc, noWsRuns]
    | cons d r =>
      by_cases hc : isWsChar c = true
      · by_cases hd : isWsChar d = true
        · show noWsRuns (if isWsChar c then if isWsChar d then collapseChars (d :: r)
            else ' ' :: collapseChars (d :: r) else c :: collapseChars (d :: r)) = true
          rw [if_pos hc, if_pos hd]
          exact ih
        · simp only [Bool.not_eq_true] at hd
          show noWsRuns (if isWsChar c then if isWsChar d then collapseChars (d :: r)
            else ' ' :: collapseChars (d :: r) else c :: collapseChars (d :: r)) = true
          rw [if_pos hc, if_neg (by simp [hd])]
          rw [collapseChars_cons_not d r hd]
          have : noWsRuns (' ' :: d :: collapseChars r) = true := by
            have ht : noWsRuns (d :: collapseChars r) = true := by
              rw [← collapseChars_cons_not d r hd]; exact ih
            simp [noWsRuns, hd, ht]
          exact this
      · simp only [Bool.not_eq_true] at hc
        rw [collapseChars_cons_not c (d :: r) hc, noWsRuns_cons_not c _ hc]
        exact ih

theorem collapseChars_of_noWsRuns (l : List Char) (h : noWsRuns l = true) :
    collapseChars l = l := by
  induction l with
  | nil => rfl
  | cons c t ih =>
    cases t with
    | nil =>
      by_cases hc : isWsChar c = true
      · have hsp : c = ' ' := by
          have := h
          simp [noWsRuns, hc] at this
          exact this
        simp [collapseChars, hc, hsp]
      · simp only [Bool.not_eq_true] at hc
        simp [collapseChars, hc]
    | cons d r =>
      have hhead := (Bool.and_eq_true_iff.1 h).1
      have htail := (Bool.and_eq_true_iff.1 h).2
      by_cases hc : isWsChar c = true
      · have hp : c = ' ' ∧ isWsChar d = false := by
          simp [hc] at hhead
          exact ⟨hhead.1, hhead.2⟩
        show (if isWsChar c then if isWsChar d then collapseChars (d :: r)
          else ' ' :: collapseChars (d :: r) else c :: collapseChars (d :: r)) = _
        rw [if_pos hc, if_neg (by simp [hp.2]), ih htail, hp.1]
      · simp only [Bool.not_eq_true] at hc
        rw [collapseChars_cons_not c (d :: r) hc, ih htail]

theorem noWsRuns_append_left (l₁ l₂ : List Char)
    (h : noWsRuns (l₁ ++ l₂) = true) : noWsRuns l₁ = true := by
  induction l₁ with
  | nil => rfl
  | cons c t ih =>
    cases t with
    | nil =>
      cases l₂ with
      | nil => simpa using h
      | cons d r =>
        have hhead := (Bool.and_eq_true_iff.1 h).1
        by_cases hc : isWsChar c = true
        · simp [hc] at hhead
          simp [noWsRuns, hc, hhead.1]
        · simp only [Bool.not_eq_true] at hc
          simp [noWsRuns, hc]
    | cons d r =>
      have hhead := (Bool.and_eq_true_iff.1 h).1
      have htail : noWsRuns ((d :: r) ++ l₂) = true := (Bool.and_eq_true_iff.1 h).2
      have ht2 := ih htail
      show ((!isWsChar c || (c == ' ' && !isWsChar d)) && noWsRuns (d :: r)) = true
      rw [ht2, hhead]
      rfl

theorem noWsRuns_append_right (l₁ l₂ : List Char)
    (h : noWsRuns (l₁ ++ l₂) = true) : noWsRuns l₂ = true := by
  induction l₁ with
  | nil => simpa using h
  | cons c t ih => exact ih (noWsRuns_tail c _ (by simpa using h))

theorem noWsRuns_dropWhile (l : List Char) (h : noWsRuns l = true) :
    noWsRuns (l.dropWhile isWsChar) = true := by
  rcases List.dropWhile_suffix (l := l) isWsChar with ⟨t, ht⟩
  rw [← ht] at h
  exact noWsRuns_append_right t _ h

theorem noWsRuns_rdropWhile (l : List Char) (h : noWsRuns l = true) :
    noWsRuns (List.rdropWhile isWsChar l) = true := by
  rcases List.rdropWhile_prefix (l := l) isWsChar with ⟨t, ht⟩
  rw [← ht] at h
  exact noWsRuns_append_left _ t h

theorem noWsRuns_trimChars (l : List Char) (h : noWsRuns l = true) :
    noWsRuns (trimChars l) = true :=
  noWsRuns_rdropWhile _ (noWsRuns_dropWhile l h)

theorem dropWhile_trimChars (l : List Char) :
    List.dropWhile isWsChar (trimChars l) = trimChars l := by
  rw [List.dropWhile_eq_self_iff]
  intro hl
  rcases List.rdropWhile_prefix (l := l.dropWhile isWsChar) isWsChar with ⟨t, ht⟩
  obtain ⟨c, b2, hb⟩ : ∃ c b2, trimChars l = c :: b2 :=
    List.exists_cons_of_ne_nil (by
      intro h0
      rw [h0] at hl
      simp at hl)
  · have ha : l.dropWhile isWsChar = c :: (b2 ++ t) := by
      rw [← ht]
      show trimChars l ++ t = _
      rw [hb]
      rfl
    have hlen : 0 < (l.dropWhile isWsChar).length := by rw [ha]; simp
    have hnot := List.dropWhile_get_zero_not isWsChar l hlen
    have hc : (l.dropWhile isWsChar).get ⟨0, hlen⟩ = c := by
      have := List.get_of_eq ha ⟨0, hlen⟩
      simpa using this
    rw [hc] at hnot
    have hgc : (trimChars l).get ⟨0, hl⟩ = c := by
      have := List.get_of_eq hb ⟨0, hl⟩
      simpa using this
    rw [hgc]
    exact hnot

theorem trimChars_idem (l : List Char) : trimChars (trimChars l) = trimChars l := by
  show List.rdropWhile isWsChar ((trimChars l).dropWhile isWsChar) = trimChars l
  rw [dropWhile_trimChars]
  show List.rdropWhile isWsChar (List.rdropWhile isWsChar (l.dropWhile isWsChar)) = _
  rw [List.rdropWhile_idempotent]
  rfl

theorem jsTrim_idem (s : String) : jsTrim (jsTrim s) = jsTrim s :=
  String.ext (trimChars_idem s.data)

theorem normText_idem (s : String) : normText (normText s) = normText s := by
  apply String.ext
  show trimChars (collapseChars (trimChars (collapseChars s.data)))
    = trimChars (collapseChars s.data)
  rw [collapseChars_of_noWsRuns _ (noWsRuns_trimChars _ (noWsRuns_collapse s.data)),
    trimChars_idem]

/-! ### Claim C7: whitespace normalization of the extracted texts -/

theorem slice_normText_all (cap : Nat) (ts : List String) :
    (((collectTexts ts).take cap).map (jsSlice 200)).all
      (fun x => (normText x == x) || (x.length == 200)) = true := by
  rw [List.all_eq_true]
  intro x hx
  rcases List.mem_map.1 hx with ⟨y, hy, rfl⟩
  have hy2 : y ∈ collectTexts ts := List.take_subset cap _ hy
  rw [collectTexts_eq] at hy2
  have hy3 := List.mem_of_mem_filter hy2
  rcases List.mem_map.1 hy3 with ⟨z, _, rfl⟩
  by_cases hlen : (normText z).length ≤ 200
  · rw [jsSlice_of_le _ _ hlen]
    simp [normText_idem]
  · have h200 := jsSlice_length_of_lt 200 (normText z) (by omega)
    simp [h200]

/-- Claim C7, counterexample: a page whose `<title>` text is `"a\n\nb"`
yields `page_title = "a\n\nb"` — the internal whitespace run is NOT
collapsed to a single space (the code only trims the title), so the claim
that every extracted text has whitespace runs collapsed is false. -/
theorem page_title_not_collapsed_cex :
    (extractHeadings (.resp true ⟨"a\n\nb", "", [], []⟩)).page_title = "a\n\nb" ∧
    normText "a\n\nb" = "a b" ∧
    ¬ (normText ((extractHeadings (.resp true ⟨"a\n\nb", "", [], []⟩)).page_title)
        = (extractHeadings (.resp true ⟨"a\n\nb", "", [], []⟩)).page_title) := by
  decide

/-- Claim C7, amended: `h1` and every `h2`/`h3` item are whitespace-
collapsed and trimmed unless they are exactly 200 characters long (the
cap is applied after normalization and can cut a string so that it ends
in whitespace); `page_title` is only trimmed, not collapsed — its
internal whitespace runs are preserved — again unless cut at 200. -/
theorem extract_texts_normalized_amended (page : Page) :
    (jsTrim (extractHeadings (.resp true page)).page_title
        = (extractHeadings (.resp true page)).page_title ∨
      (extractHeadings (.resp true page)).page_title.length = 200) ∧
    (normText (extractHeadings (.resp true page)).h1
        = (extractHeadings (.resp true page)).h1 ∨
      (extractHeadings (.resp true page)).h1.length = 200) ∧
    ((extractHeadings (.resp true page)).h2.all
      (fun x => (normText x == x) || (x.length == 200)) = true) ∧
    ((extractHeadings (.resp true page)).h3.all
      (fun x => (normText x == x) || (x.length == 200)) = true) := by
  rw [extractHeadings_resp_true]
  refine ⟨?_, ?_, slice_normText_all 20 _, slice_normText_all 40 _⟩
  · by_cases hlen : (jsTrim page.titleText).length ≤ 200
    · left
      rw [jsSlice_of_le _ _ hlen, jsTrim_idem]
    · right
      exact jsSlice_length_of_lt 200 _ (by omega)
  · by_cases hlen : (normText page.h1Text).length ≤ 200
    · left
      rw [jsSlice_of_le _ _ hlen, normText_idem]
    · right
      exact jsSlice_length_of_lt 200 _ (by omega)

/-! ### Validity of the generated timestamps -/

theorem data_mk (l : List Char) : (String.mk l).data = l := rfl

theorem digitCh_digit (n : Nat) : isDigitCh (digitCh n) = true := by
  unfold digitCh
  split <;> decide

theorem digitCh_toNat (n : Nat) : (digitCh n).toNat = 48 + n % 10 := by
  unfold digitCh
  have h : n % 10 < 10 := Nat.mod_lt _ (by norm_num)
  generalize hk : n % 10 = k at *
  interval_cases k <;> decide

theorem twoDigits_pad (m : Nat) (h : m < 100) :
    twoDigits (digitCh (m / 10)) (digitCh m) = m := by
  unfold twoDigits
  rw [digitCh_toNat, digitCh_toNat]
  omega

theorem civil_ranges (z : Nat) :
    1 ≤ (civilFromDays z).month ∧ (civilFromDays z).month ≤ 12 ∧
    1 ≤ (civilFromDays z).day ∧ (civilFromDays z).day ≤ 31 := by
  unfold civilFromDays
  refine ⟨?_, ?_, ?_, ?_⟩ <;> simp only [] <;> first | (split <;> omega) | omega

theorem toISOString_valid (ms : Nat) : isValidISO8601 (toISOString ms) = true := by
  have hciv := civil_ranges (ms / 86400000)
  have hrem : ms % 86400000 < 86400000 := Nat.mod_lt _ (by norm_num)
  unfold toISOString isValidISO8601
  simp only [pad4c, pad2c, pad3c, List.cons_append, List.nil_append, data_mk]
  simp only [Bool.and_eq_true, List.all_cons, List.all_nil, decide_eq_true_eq]
  rw [twoDigits_pad _ (by omega), twoDigits_pad _ (by omega),
    twoDigits_pad _ (by omega), twoDigits_pad _ (by omega),
    twoDigits_pad _ (by omega)]
  simp [digitCh_digit]
  omega

/-! ### Handler-level claims -/

/-- Claim C4: when no organic result's link contains the marker, the
endpoint short-circuits with a 200, an empty `results` array and a
non-empty `note`, and the page extractor is never invoked (the trace
records no extracted URLs). -/
theorem empty_filter_short_circuit (cfg : Config) (hdr : Option String)
    (query : String) (numRaw : JNum) (organic : List Organic)
    (fp : String → FetchOutcome) (clk : Nat → Nat)
    (hAuth : requireAuth cfg hdr = true) (hKey : cfg.serpApiKey ≠ "")
    (hQ : query ≠ "")
    (hNone : ∀ r ∈ organic, isNoteLink r = false) :
    handleNoteTopOutline cfg hdr query numRaw (.ok (some organic)) fp clk
      = ⟨Resp.emptyOk (query ++ " site:note.com") []
          "No note.com results found in top organic results.", true, []⟩ ∧
    (handleNoteTopOutline cfg hdr query numRaw (.ok (some organic)) fp clk).resp.status
      = 200 ∧
    "No note.com results found in top organic results." ≠ "" := by
  have hfil : organic.filter isNoteLink = [] :=
    List.filter_eq_nil_iff.2 (fun a ha => by simp [hNone a ha])
  have htop : ∀ n : Nat, topResults organic n = [] := by
    intro n
    rw [topResults, hfil, List.take_nil]
    rfl
  have htr : handleNoteTopOutline cfg hdr query numRaw (.ok (some organic)) fp clk
      = ⟨Resp.emptyOk (query ++ " site:note.com") []
          "No note.com results found in top organic results.", true, []⟩ := by
    simp [handleNoteTopOutline, hAuth, hKey, hQ, htop]
  refine ⟨htr, by rw [htr]; rfl, by decide⟩

/-- Claim C5: with at least one filtered link, the response is the 200
success payload whose `query` is the original query plus the fixed
suffix, whose `results` has exactly one entry per filtered link with
ranks `1..N` in order, and whose `fetched_at` stamps are the ISO
renderings of a non-decreasing sequence of clock instants, each one a
valid ISO-8601 timestamp. -/
theorem success_response_shape (cfg : Config) (hdr : Option String)
    (query : String) (numRaw : JNum) (organic : List Organic)
    (fp : String → FetchOutcome) (clk : Nat → Nat)
    (hAuth : requireAuth cfg hdr = true) (hKey : cfg.serpApiKey ≠ "")
    (hQ : query ≠ "")
    (hN : 1 ≤ (topResults organic (effNumNat numRaw)).length)
    (hMono : ∀ i j : Nat, i ≤ j → clk i ≤ clk j) :
    ∃ results times,
      handleNoteTopOutline cfg hdr query numRaw (.ok (some organic)) fp clk
        = ⟨Resp.ok (query ++ " site:note.com") results, true,
            (topResults organic (effNumNat numRaw)).map (fun r => r.url)⟩ ∧
      results.length = (topResults organic (effNumNat numRaw)).length ∧
      results.map (fun r => r.rank)
        = List.range' 1 (topResults organic (effNumNat numRaw)).length ∧
      (∀ r ∈ results, isValidISO8601 r.fetched_at = true) ∧
      results.map (fun r => r.fetched_at) = times.map toISOString ∧
      List.Chain' (fun a b => a ≤ b) times := by
  refine ⟨buildResults fp clk 0 (topResults organic (effNumNat numRaw)),
    (List.range (topResults organic (effNumNat numRaw)).length).map clk,
    ?_, ?_, ?_, ?_, ?_, ?_⟩
  · have hne : ¬ topResults organic (effJsIdx (effNum numRaw)) = [] := by
      intro h
      have h0 : (topResults organic (effNumNat numRaw)).length = 0 := by
        rw [show topResults organic (effNumNat numRaw) = [] from h]
        rfl
      omega
    simp [handleNoteTopOutline, hAuth, hKey, hQ, effNumNat, hne]
  · exact buildResults_length fp clk 0 _
  · rw [buildResults_map_rank]
    simp [topResults, rankFrom_map_rank, rankFrom_length]
  · intro r hr
    have hmem := List.mem_map_of_mem (fun r => r.fetched_at) hr
    rw [buildResults_map_fetched] at hmem
    rcases List.mem_map.1 hmem with ⟨j, _, hj⟩
    have hj2 : toISOString (clk j) = r.fetched_at := hj
    rw [← hj2]
    exact toISOString_valid _
  · rw [buildResults_map_fetched, List.map_map, ← List.range_eq_range']
    rfl
  · rw [List.chain'_map]
    exact (List.pairwise_lt_range _).chain'.imp
      (fun {a b} h => hMono a b (le_of_lt h))

/-- Claim C8: with no configured token every request is authorized; with
a configured token, a missing or non-matching bearer token makes the
handler answer 401 `{error:"Unauthorized"}` and do nothing else (no SERP
call, no extraction). -/
theorem requireAuth_policy (cfg : Config) (hdr : Option String) (query : String)
    (numRaw : JNum) (serp : SerpOutcome) (fp : String → FetchOutcome)
    (clk : Nat → Nat) :
    (cfg.apiToken = "" → requireAuth cfg hdr = true) ∧
    (cfg.apiToken ≠ "" → bearerOf hdr ≠ cfg.apiToken →
      handleNoteTopOutline cfg hdr query numRaw serp fp clk
        = ⟨Resp.jsonErr 401 "Unauthorized" none, false, []⟩) ∧
    (Resp.jsonErr 401 "Unauthorized" none).status = 401 := by
  refine ⟨fun h => by simp [requireAuth, h], fun h1 h2 => ?_, rfl⟩
  have hre : requireAuth cfg hdr = false := by
    simp [requireAuth, h1, h2]
  simp [handleNoteTopOutline, hre]

/-- Witness for C8 at concrete inputs. -/
theorem requireAuth_policy_witness :
    requireAuth ⟨"k", ""⟩ (some "nonsense") = true ∧
    handleNoteTopOutline ⟨"k", "secret"⟩ none "q" (.fin 10) (.ok none)
        (fun _ => .err) (fun i => i)
      = ⟨Resp.jsonErr 401 "Unauthorized" none, false, []⟩ :=
  ⟨(requireAuth_policy ⟨"k", ""⟩ (some "nonsense") "q" (.fin 10) (.ok none)
      (fun _ => .err) (fun i => i)).1 rfl,
   (requireAuth_policy ⟨"k", "secret"⟩ none "q" (.fin 10) (.ok none)
      (fun _ => .err) (fun i => i)).2.1 (by decide) (by decide)⟩

/-- Witness for C4 at concrete inputs. -/
theorem empty_filter_short_circuit_witness :
    handleNoteTopOutline ⟨"k", ""⟩ none "q" (.fin 10)
        (.ok (some [⟨some JsVal.nonstr, none⟩])) (fun _ => .err) (fun i => i)
      = ⟨Resp.emptyOk ("q" ++ " site:note.com") []
          "No note.com results found in top organic results.", true, []⟩ ∧
    (handleNoteTopOutline ⟨"k", ""⟩ none "q" (.fin 10)
        (.ok (some [⟨some JsVal.nonstr, none⟩])) (fun _ => .err) (fun i => i)).resp.status
      = 200 ∧
    "No note.com results found in top organic results." ≠ "" :=
  empty_filter_short_circuit ⟨"k", ""⟩ none "q" (.fin 10) [⟨some JsVal.nonstr, none⟩]
    (fun _ => .err) (fun i => i) (by decide) (by decide) (by decide) (by decide)

/-- Witness for C5 at concrete inputs. -/
theorem success_response_shape_witness :
    ∃ results times,
      handleNoteTopOutline ⟨"k", ""⟩ none "q" (.fin 10)
          (.ok (some [⟨some (JsVal.str "https://note.com/a"), some (JsVal.str "A")⟩]))
          (fun _ => .err) (fun _ => 0)
        = ⟨Resp.ok ("q" ++ " site:note.com") results, true,
            (topResults [⟨some (JsVal.str "https://note.com/a"), some (JsVal.str "A")⟩]
              (effNumNat (.fin 10))).map (fun r => r.url)⟩ ∧
      results.length
        = (topResults [⟨some (JsVal.str "https://note.com/a"), some (JsVal.str "A")⟩]
            (effNumNat (.fin 10))).length ∧
      results.map (fun r => r.rank)
        = List.range' 1
            (topResults [⟨some (JsVal.str "https://note.com/a"), some (JsVal.str "A")⟩]
              (effNumNat (.fin 10))).length ∧
      (∀ r ∈ results, isValidISO8601 r.fetched_at = true) ∧
      results.map (fun r => r.fetched_at) = times.map toISOString ∧
      List.Chain' (fun a b => a ≤ b) times :=
  success_response_shape ⟨"k", ""⟩ none "q" (.fin 10)
    [⟨some (JsVal.str "https://note.com/a"), some (JsVal.str "A")⟩]
    (fun _ => .err) (fun _ => 0) (by decide) (by decide) (by decide) (by decide)
    (fun _ _ _ => le_refl 0)

/-! ### Claim C9: empty-query handling -/

theorem jsTrim_all_ws (s : String) (h : ∀ c ∈ s.data, isWsChar c = true) :
    jsTrim s = "" := by
  apply String.ext
  show trimChars s.data = ([] : List Char)
  rw [trimChars, List.dropWhile_eq_nil_iff.2 h]
  exact List.rdropWhile_nil isWsChar

/-- Claim C9, counterexample: a request whose query is whitespace-only
but which fails the bearer-token check is answered 401, not 400 — the
auth gate runs before the query validation, so "every request with an
empty or whitespace-only query returns 400" is false. -/
theorem empty_query_auth_first_cex :
    (noteTopOutlineRoute ⟨"key", "secret"⟩ none (some "   ") (.fin 10) (.ok none)
        (fun _ => .err) (fun i => i)).resp
      = Resp.jsonErr 401 "Unauthorized" none ∧
    ¬ ((noteTopOutlineRoute ⟨"key", "secret"⟩ none (some "   ") (.fin 10) (.ok none)
        (fun _ => .err) (fun i => i)).resp.status = 400) := by
  decide

/-- Claim C9, amended: provided the request passes authentication and
the search API key is configured, a request whose raw query is empty or
whitespace-only is answered 400 `{error:"query is required"}` with no
SERP call and no extraction. -/
theorem empty_query_400_amended (cfg : Config) (hdr : Option String)
    (qRaw : Option String) (numRaw : JNum) (serp : SerpOutcome)
    (fp : String → FetchOutcome) (clk : Nat → Nat)
    (hAuth : requireAuth cfg hdr = true) (hKey : cfg.serpApiKey ≠ "")
    (hWs : ∀ c ∈ (match qRaw with | some s => s | none => "").data, isWsChar c = true) :
    noteTopOutlineRoute cfg hdr qRaw numRaw serp fp clk
      = ⟨Resp.jsonErr 400 "query is required" none, false, []⟩ ∧
    (Resp.jsonErr 400 "query is required" none).status = 400 := by
  refine ⟨?_, rfl⟩
  unfold noteTopOutlineRoute
  cases qRaw with
  | none =>
    rw [show jsTrim "" = "" from jsTrim_all_ws "" hWs]
    simp [handleNoteTopOutline, hAuth, hKey]
  | some s =>
    rw [show jsTrim s = "" from jsTrim_all_ws s hWs]
    simp [handleNoteTopOutline, hAuth, hKey]

/-- Witness for the amended C9 at concrete inputs. -/
theorem empty_query_400_amended_witness :
    noteTopOutlineRoute ⟨"k", ""⟩ none (some "  ") (.fin 10) (.ok none)
        (fun _ => .err) (fun i => i)
      = ⟨Resp.jsonErr 400 "query is required" none, false, []⟩ ∧
    (Resp.jsonErr 400 "query is required" none).status = 400 :=
  empty_query_400_amended ⟨"k", ""⟩ none (some "  ") (.fin 10) (.ok none)
    (fun _ => .err) (fun i => i) (by decide) (by decide) (by decide)
